import Mathlib

/-!
Verification of the Kai Keeper gardening tracker (src/src/storage.js).

The core logic lives in a single React component file.  We embed the pure
domain logic shallowly:

* JavaScript numbers are modelled as exact rationals (`ℚ`), except where a
  division can produce `NaN` or `±Infinity`: division results are values of
  the type `JSNum` (a rational, `NaN`, or a signed infinity), matching IEEE
  division semantics for a zero denominator, which the phase estimator can
  hit when the average germination length is zero.
* ISO calendar dates that are only ever fed to `daysBetween`/`addDays`
  (`Planting.plantedAt` and "today") are modelled as integer day numbers:
  a date-only ISO string parses to UTC midnight, so
  `Math.floor((b - a) / 86400000)` is exactly the difference of day numbers.
  Harvest dates, which are only ever sliced to a month key, stay `String`.
* The insertion-ordered JavaScript `Map` used by the report aggregators is
  modelled as an association list updated in place (`bump`), and
  `Array.prototype.sort` (stable, ES2019) as `List.insertionSort` with the
  non-strict comparison induced by the JS comparator, which is stable in the
  same sense.
-/

/-- A JavaScript number as produced by a division: a finite value (modelled
exactly as a rational), `NaN`, or a signed infinity. -/
inductive JSNum where
  | real (q : ℚ)
  | posInf
  | negInf
  | nan
deriving DecidableEq, Repr

namespace JSNum

/-- JavaScript division `a / b` of finite numbers: `0/0 = NaN`,
`x/0 = ±Infinity` for `x ≠ 0`, ordinary division otherwise. -/
def jsDiv (a b : ℚ) : JSNum :=
  if b = 0 then (if a = 0 then nan else if 0 < a then posInf else negInf)
  else real (a / b)

/-- Multiplication by the positive literal `100` (as in `(x) * 100`):
infinities keep their sign, `NaN` propagates. -/
def mul100 : JSNum → JSNum
  | real q => real (q * 100)
  | posInf => posInf
  | negInf => negInf
  | nan => nan

/-- JS `Math.max` on a finite first argument: `NaN` propagates, `Infinity`
dominates, `-Infinity` is absorbed. -/
def jsMax : ℚ → JSNum → JSNum
  | _, nan => nan
  | _, posInf => posInf
  | a, negInf => real a
  | a, real b => real (max a b)

/-- JS `Math.min` on a finite first argument: `NaN` propagates, `-Infinity`
dominates, `Infinity` is absorbed. -/
def jsMin : ℚ → JSNum → JSNum
  | _, nan => nan
  | _, negInf => negInf
  | a, posInf => real a
  | a, real b => real (min a b)

/-- The source's `clamp(v, min, max) = Math.min(max, Math.max(min, v))`. -/
def clamp (v : JSNum) (lo hi : ℚ) : JSNum :=
  jsMin hi (jsMax lo v)

/-- Decidable check that a JS number is a finite value in `[lo, hi]`. -/
def between (lo hi : ℚ) : JSNum → Bool
  | real q => decide (lo ≤ q) && decide (q ≤ hi)
  | _ => false

end JSNum

/-- Measurement unit (`Unit` in the source; renamed to avoid the clash with
Lean's built-in `Unit`). -/
inductive MeasUnit where
  | kg
  | count
deriving DecidableEq, Repr

/-- Catalogue entry (`PlantType` typedef in the source). -/
structure PlantType where
  id : String
  name : String
  germinationMinDays : ℚ
  germinationMaxDays : ℚ
  maturityDays : ℚ
  harvestWindowDays : ℚ
  defaultUnit : MeasUnit
deriving DecidableEq, Repr

/-- A planting record (`Planting` typedef).  `plantedAt` is an ISO date,
modelled as an integer day number (see the header comment). -/
structure Planting where
  id : String
  plantTypeId : String
  plantedAt : ℤ
  location : String
  quantityPlanted : ℚ
  notes : String
  archived : Bool
deriving DecidableEq, Repr

/-- A harvest record (`Harvest` typedef).  `date` stays an ISO date string:
the aggregators only ever slice it. -/
structure Harvest where
  id : String
  plantingId : String
  date : String
  amount : ℚ
  unit : MeasUnit
  notes : String
deriving DecidableEq, Repr

/-- The source's `daysBetween(fromISO, toISO) = Math.floor((b - a) / 86400000)`: exact on
date-only ISO strings, i.e. the difference of day numbers. -/
def daysBetween (fromDay toDay : ℤ) : ℤ :=
  toDay - fromDay

/-- The lookup `Object.fromEntries(plantTypes.map(p => [p.id, p]))[i]`:
later entries overwrite earlier ones, so the lookup returns the last match. -/
def lookupById (plantTypes : List PlantType) (i : String) : Option PlantType :=
  plantTypes.foldl (fun acc p => if p.id == i then some p else acc) none

/-- The `expected` date block of a phase snapshot (`addDays` on the planted
day; calendar day numbers, offsets taken from the catalogue entry). -/
structure ExpectedDates where
  germinationStart : ℚ
  germinationEnd : ℚ
  firstHarvest : ℚ
  lastHarvest : ℚ
deriving DecidableEq, Repr

/-- The record returned by `phaseFor` (minus the UI-only repackaging). -/
structure PhaseSnapshot where
  germinationPct : JSNum
  growthPct : JSNum
  harvestPct : JSNum
  expected : ExpectedDates
  done : Bool
  elapsed : ℚ
  total : ℚ
deriving DecidableEq, Repr

/-- The local `elapsed` of `phaseFor`:
`Math.max(0, daysBetween(planting.plantedAt, now))`. -/
def elapsedDays (planting : Planting) (now : ℤ) : ℚ :=
  max 0 ((daysBetween planting.plantedAt now : ℤ) : ℚ)

/-- The local `germAvg = g1` of `phaseFor`: the average germination length. -/
def germLen (pt : PlantType) : ℚ :=
  (pt.germinationMinDays + pt.germinationMaxDays) / 2

/-- The local `g2` of `phaseFor`: the growth length, at least 1. -/
def growthLen (pt : PlantType) : ℚ :=
  max 1 (pt.maturityDays - germLen pt)

/-- The local `g3` of `phaseFor`: the harvest-window length, at least 1. -/
def harvestLen (pt : PlantType) : ℚ :=
  max 1 pt.harvestWindowDays

/-- The local `total = g1 + g2 + g3` of `phaseFor`. -/
def totalLen (pt : PlantType) : ℚ :=
  germLen pt + growthLen pt + harvestLen pt

/-- The phase estimator `phaseFor`, with the ambient catalogue and the
current day made explicit parameters (its `let`-bound locals are the named
definitions above). -/
def phaseFor (plantTypes : List PlantType) (now : ℤ) (planting : Planting) :
    Option PhaseSnapshot :=
  match lookupById plantTypes planting.plantTypeId with
  | none => none
  | some pt =>
    some
      { germinationPct :=
          JSNum.clamp (JSNum.mul100
            (JSNum.jsDiv (elapsedDays planting now) (germLen pt))) 0 100
        growthPct :=
          JSNum.clamp (JSNum.mul100
            (JSNum.jsDiv (elapsedDays planting now - germLen pt) (growthLen pt))) 0 100
        harvestPct :=
          JSNum.clamp (JSNum.mul100
            (JSNum.jsDiv (elapsedDays planting now - germLen pt - growthLen pt)
              (harvestLen pt))) 0 100
        expected :=
          { germinationStart := (planting.plantedAt : ℚ) + pt.germinationMinDays
            germinationEnd := (planting.plantedAt : ℚ) + pt.germinationMaxDays
            firstHarvest := (planting.plantedAt : ℚ) + pt.maturityDays
            lastHarvest :=
              (planting.plantedAt : ℚ) + pt.maturityDays + pt.harvestWindowDays }
        done := decide (totalLen pt < elapsedDays planting now)
        elapsed := elapsedDays planting now
        total := totalLen pt }

/-- The source's `monthKey = iso.slice(0, 7)` — the `YYYY-MM` prefix of an ISO date. -/
def monthKey (iso : String) : String :=
  iso.take 7

/-- One `map.set(k, (map.get(k) || 0) + v)` step on the insertion-ordered
map: an existing key keeps its position, a new key is appended. -/
def bump : List (String × ℚ) → String → ℚ → List (String × ℚ)
  | [], k, v => [(k, v)]
  | e :: rest, k, v =>
    if e.1 == k then (e.1, e.2 + v) :: rest else e :: bump rest k v

/-- The accumulation loop of `monthlyTotals`. -/
def tallyByMonth : List (String × ℚ) → List Harvest → List (String × ℚ)
  | m, [] => m
  | m, h :: rest => tallyByMonth (bump m (monthKey h.date) h.amount) rest

/-- The aggregator `monthlyTotals`: tally amounts per month key, then sort ascending by key
(the JS comparator `(a, b) => a < b ? -1 : 1` over the distinct map keys). -/
def monthlyTotals (subset : List Harvest) : List (String × ℚ) :=
  List.insertionSort (fun a b => a.1 ≤ b.1) (tallyByMonth [] subset)

/-- The resolution `pt?.name || "Unknown"`: a missing catalogue entry, or one with an empty
(falsy) name, resolves to the literal label `"Unknown"`. -/
def plantTypeName : Option PlantType → String
  | some pt => if pt.name = "" then "Unknown" else pt.name
  | none => "Unknown"

/-- The accumulation loop of `totalsByPlantType`: resolve the harvest's
planting by `Array.prototype.find` (first match), skipping the harvest if it
dangles, then tally under the resolved plant-type name. -/
def tallyByType (plantTypes : List PlantType) (plantings : List Planting) :
    List (String × ℚ) → List Harvest → List (String × ℚ)
  | m, [] => m
  | m, h :: rest =>
    match plantings.find? (fun p => p.id == h.plantingId) with
    | none => tallyByType plantTypes plantings m rest
    | some pl =>
      tallyByType plantTypes plantings
        (bump m (plantTypeName (lookupById plantTypes pl.plantTypeId)) h.amount)
        rest

/-- The aggregator `totalsByPlantType`: tally, then sort descending by total (the JS
comparator `(a, b) => b[1] - a[1]`, stable on ties). -/
def totalsByPlantType (plantTypes : List PlantType) (plantings : List Planting)
    (subset : List Harvest) : List (String × ℚ) :=
  List.insertionSort (fun a b => b.2 ≤ a.2) (tallyByType plantTypes plantings [] subset)

/-- The key a harvest's amount is tallied under, if any: `none` when its
planting dangles, otherwise the resolved plant-type name. -/
def resolvedKey (plantTypes : List PlantType) (plantings : List Planting)
    (h : Harvest) : Option String :=
  (plantings.find? (fun p => p.id == h.plantingId)).map
    (fun pl => plantTypeName (lookupById plantTypes pl.plantTypeId))

/-- Sum of the `amount` fields of a harvest list. -/
def sumAmounts : List Harvest → ℚ
  | [] => 0
  | h :: rest => h.amount + sumAmounts rest

/-- Sum of the totals of an aggregation result. -/
def sumTotals : List (String × ℚ) → ℚ
  | [] => 0
  | e :: rest => e.2 + sumTotals rest

/-- The total an aggregation result carries for one key (summed, in case a
list were to repeat a key; the tallies never do). -/
def keyTotal : List (String × ℚ) → String → ℚ
  | [], _ => 0
  | e :: rest, k => (if e.1 = k then e.2 else 0) + keyTotal rest k

/-- The three in-memory collections held in React state. -/
structure AppState where
  plantTypes : List PlantType
  plantings : List Planting
  harvests : List Harvest
deriving DecidableEq, Repr

/-- A parsed backup payload: each collection field may be absent (a list, if
present, is always truthy in the source's `data.plantTypes && ...` check). -/
structure Backup where
  plantTypes : Option (List PlantType)
  plantings : Option (List Planting)
  harvests : Option (List Harvest)
  exportedAt : Option String
deriving DecidableEq, Repr

/-- The exporter `exportJSON`: serialize the three collections plus a timestamp. -/
def exportJSON (st : AppState) (timestamp : String) : Backup :=
  { plantTypes := some st.plantTypes
    plantings := some st.plantings
    harvests := some st.harvests
    exportedAt := some timestamp }

/-- The importer `importJSON` on an already-parsed payload: accept (and replace all three
collections) only when all three collection fields are present; otherwise
leave the state untouched.  The `Bool` reports acceptance. -/
def importJSON (data : Backup) (st : AppState) : Bool × AppState :=
  match data.plantTypes, data.plantings, data.harvests with
  | some ts, some ps, some hs => (true, { plantTypes := ts, plantings := ps, harvests := hs })
  | _, _, _ => (false, st)

/-- The harvest-modal input fields (`harvestInput`). -/
structure HarvestInput where
  amount : ℚ
  unit : MeasUnit
  date : String
  notes : String
deriving DecidableEq, Repr

/-- The mutator `logHarvest`: bail out if no modal target is open or the amount is falsy
or non-positive; otherwise prepend one new harvest record. -/
def logHarvest (target : Option Planting) (input : HarvestInput) (newId : String)
    (st : AppState) : AppState :=
  match target with
  | none => st
  | some t =>
    if input.amount = 0 ∨ input.amount ≤ 0 then st
    else
      { st with
          harvests :=
            { id := newId, plantingId := t.id, date := input.date,
              amount := input.amount, unit := input.unit, notes := input.notes }
              :: st.harvests }

/-- The mutator `toggleArchive`: flip the `archived` flag of the planting(s) with the
given id, via `{...p, archived: !p.archived}`. -/
def toggleArchive (i : String) (arr : List Planting) : List Planting :=
  arr.map (fun p => if p.id == i then { p with archived := !p.archived } else p)

/-- The mutator `removeType`: delete a catalogue entry by id; the other two collections
are not touched. -/
def removeType (tid : String) (st : AppState) : AppState :=
  { st with plantTypes := st.plantTypes.filter (fun p => p.id != tid) }

/-- The identity of every field of a planting except `archived`. -/
def plantingFrame (p : Planting) : String × String × ℤ × String × ℚ × String :=
  (p.id, p.plantTypeId, p.plantedAt, p.location, p.quantityPlanted, p.notes)

namespace JSNum

theorem jsDiv_of_ne (a b : ℚ) (hb : b ≠ 0) : jsDiv a b = real (a / b) := by
  simp [jsDiv, hb]

theorem between_clamp_real (q : ℚ) : between 0 100 (clamp (real q) 0 100) = true := by
  simp only [clamp, jsMax, jsMin, between, Bool.and_eq_true, decide_eq_true_eq]
  exact ⟨le_min (by norm_num) (le_max_left _ _), min_le_left _ _⟩

theorem clamp_real_of_ge (q : ℚ) (h : 100 ≤ q) : clamp (real q) 0 100 = real 100 := by
  simp only [clamp, jsMax, jsMin, real.injEq]
  rw [max_eq_right (le_trans (by norm_num) h), min_eq_left h]

theorem clamp_real_of_nonpos (q : ℚ) (h : q ≤ 0) : clamp (real q) 0 100 = real 0 := by
  simp only [clamp, jsMax, jsMin, real.injEq]
  rw [max_eq_left h, min_eq_right (by norm_num)]

theorem between_clamp_div (a b : ℚ) (hb : b ≠ 0) :
    between 0 100 (clamp (mul100 (jsDiv a b)) 0 100) = true := by
  rw [jsDiv_of_ne a b hb]
  exact between_clamp_real _

theorem clamp_div_eq_100 (a b : ℚ) (hb : 0 < b) (h : b ≤ a) :
    clamp (mul100 (jsDiv a b)) 0 100 = real 100 := by
  rw [jsDiv_of_ne a b hb.ne']
  apply clamp_real_of_ge
  calc (100 : ℚ) = 1 * 100 := by norm_num
    _ ≤ a / b * 100 := by
        apply mul_le_mul_of_nonneg_right _ (by norm_num)
        exact (one_le_div hb).mpr h

theorem clamp_div_zero_den (a : ℚ) (ha : 0 < a) :
    clamp (mul100 (jsDiv a 0)) 0 100 = real 100 := by
  simp [jsDiv, ha.ne', ha, mul100, clamp, jsMax, jsMin]

theorem clamp_div_nonpos (a b : ℚ) (ha : a ≤ 0) (hb : 0 < b) :
    clamp (mul100 (jsDiv a b)) 0 100 = real 0 := by
  rw [jsDiv_of_ne a b hb.ne']
  exact clamp_real_of_nonpos _ (mul_nonpos_of_nonpos_of_nonneg
    (div_nonpos_of_nonpos_of_nonneg ha hb.le) (by norm_num))

end JSNum

/-- C1: for every planting whose plant type resolves, any elapsed day count
(the estimator clamps it to be non-negative) and a positive germination
phase length (growth and harvest-window lengths are forced to be at least 1
by the estimator itself), the three percentages returned by `phaseFor` are
finite values in the closed interval `[0, 100]`. -/
theorem phaseFor_pcts_in_range (pts : List PlantType) (now : ℤ) (planting : Planting)
    (pt : PlantType) (hpt : lookupById pts planting.plantTypeId = some pt)
    (hpos : 0 < (pt.germinationMinDays + pt.germinationMaxDays) / 2) :
    ∃ snap, phaseFor pts now planting = some snap ∧
      snap.germinationPct.between 0 100 = true ∧
      snap.growthPct.between 0 100 = true ∧
      snap.harvestPct.between 0 100 = true := by
  refine ⟨_, by rw [phaseFor, hpt], ?_, ?_, ?_⟩
  · exact JSNum.between_clamp_div _ _ hpos.ne'
  · exact JSNum.between_clamp_div _ _
      (lt_of_lt_of_le one_pos (le_max_left _ _)).ne'
  · exact JSNum.between_clamp_div _ _
      (lt_of_lt_of_le one_pos (le_max_left _ _)).ne'

/-- A sample catalogue entry used to instantiate hypotheses concretely. -/
def samplePT : PlantType :=
  { id := "t1", name := "Tomato", germinationMinDays := 10, germinationMaxDays := 20,
    maturityDays := 85, harvestWindowDays := 35, defaultUnit := .kg }

/-- A sample planting referencing `samplePT`. -/
def samplePlanting : Planting :=
  { id := "p1", plantTypeId := "t1", plantedAt := 0, location := "Bed A",
    quantityPlanted := 1, notes := "", archived := false }

/-- Witness for C1: the hypotheses hold and the conclusion follows at a
concrete catalogue, planting, and day. -/
theorem phaseFor_pcts_in_range_witness :
    lookupById [samplePT] samplePlanting.plantTypeId = some samplePT ∧
    (0 : ℚ) < (samplePT.germinationMinDays + samplePT.germinationMaxDays) / 2 ∧
    ∃ snap, phaseFor [samplePT] 15 samplePlanting = some snap ∧
      snap.germinationPct.between 0 100 = true ∧
      snap.growthPct.between 0 100 = true ∧
      snap.harvestPct.between 0 100 = true :=
  ⟨by decide, by norm_num [samplePT],
    phaseFor_pcts_in_range [samplePT] 15 samplePlanting samplePT (by decide)
      (by norm_num [samplePT])⟩

/-- A catalogue entry with a zero average germination length (both
germination bounds 0, which the data model allows). -/
def zeroGermPT : PlantType :=
  { id := "z1", name := "ZeroGerm", germinationMinDays := 0, germinationMaxDays := 0,
    maturityDays := 60, harvestWindowDays := 21, defaultUnit := .kg }

/-- A planting of `zeroGermPT`. -/
def zeroGermPlanting : Planting :=
  { id := "pz", plantTypeId := "z1", plantedAt := 0, location := "",
    quantityPlanted := 1, notes := "", archived := false }

/-- Counterexample to C2 as stated: with a resolving plant type whose
germination bounds are both 0 and `elapsed = 0` (planted today), the
germination percentage is `NaN` (`0/0` in the source), not `0`. -/
theorem phaseFor_elapsed_zero_cex :
    (phaseFor [zeroGermPT] 0 zeroGermPlanting).map PhaseSnapshot.germinationPct
      = some JSNum.nan ∧
    some JSNum.nan ≠ some (JSNum.real 0) := by
  have h1 : lookupById [zeroGermPT] zeroGermPlanting.plantTypeId = some zeroGermPT := by
    decide
  have hE : elapsedDays zeroGermPlanting 0 = 0 := by
    norm_num [elapsedDays, daysBetween, zeroGermPlanting]
  have hG : germLen zeroGermPT = 0 := by
    norm_num [germLen, zeroGermPT]
  refine ⟨?_, by decide⟩
  rw [phaseFor, h1]
  simp [hE, hG, JSNum.jsDiv, JSNum.mul100, JSNum.clamp, JSNum.jsMax, JSNum.jsMin]

/-- C2 (amended): for a planting planted today (elapsed 0) whose plant type
resolves and has a positive germination length, all three percentages are 0
and `done` is false. -/
theorem phaseFor_elapsed_zero (pts : List PlantType) (now : ℤ) (planting : Planting)
    (pt : PlantType) (hpt : lookupById pts planting.plantTypeId = some pt)
    (hplanted : planting.plantedAt = now)
    (hpos : 0 < pt.germinationMinDays + pt.germinationMaxDays) :
    ∃ snap, phaseFor pts now planting = some snap ∧
      snap.germinationPct = JSNum.real 0 ∧ snap.growthPct = JSNum.real 0 ∧
      snap.harvestPct = JSNum.real 0 ∧ snap.done = false := by
  have hE : elapsedDays planting now = 0 := by
    simp [elapsedDays, daysBetween, hplanted]
  have hg1 : 0 < germLen pt := div_pos hpos (by norm_num)
  have hg2 : 0 < growthLen pt := lt_of_lt_of_le one_pos (le_max_left _ _)
  have hg3 : 0 < harvestLen pt := lt_of_lt_of_le one_pos (le_max_left _ _)
  refine ⟨_, by rw [phaseFor, hpt], ?_, ?_, ?_, ?_⟩
  · show JSNum.clamp (JSNum.mul100
        (JSNum.jsDiv (elapsedDays planting now) (germLen pt))) 0 100 = JSNum.real 0
    rw [hE]
    exact JSNum.clamp_div_nonpos _ _ le_rfl hg1
  · show JSNum.clamp (JSNum.mul100
        (JSNum.jsDiv (elapsedDays planting now - germLen pt) (growthLen pt))) 0 100
      = JSNum.real 0
    rw [hE]
    exact JSNum.clamp_div_nonpos _ _ (by simpa using hg1.le) hg2
  · show JSNum.clamp (JSNum.mul100
        (JSNum.jsDiv (elapsedDays planting now - germLen pt - growthLen pt)
          (harvestLen pt))) 0 100 = JSNum.real 0
    rw [hE]
    refine JSNum.clamp_div_nonpos _ _ ?_ hg3
    have := add_pos hg1 hg2
    linarith
  · show decide (totalLen pt < elapsedDays planting now) = false
    rw [hE]
    have : 0 < totalLen pt := by
      have := add_pos (add_pos hg1 hg2) hg3
      simpa [totalLen] using this
    simp only [decide_eq_false_iff_not, not_lt]
    exact this.le

/-- Witness for C2 (amended): hypotheses and conclusion at a concrete
catalogue, planting, and day. -/
theorem phaseFor_elapsed_zero_witness :
    lookupById [samplePT] samplePlanting.plantTypeId = some samplePT ∧
    samplePlanting.plantedAt = 0 ∧
    (0 : ℚ) < samplePT.germinationMinDays + samplePT.germinationMaxDays ∧
    ∃ snap, phaseFor [samplePT] 0 samplePlanting = some snap ∧
      snap.germinationPct = JSNum.real 0 ∧ snap.growthPct = JSNum.real 0 ∧
      snap.harvestPct = JSNum.real 0 ∧ snap.done = false :=
  ⟨by decide, by decide, by norm_num [samplePT],
    phaseFor_elapsed_zero [samplePT] 0 samplePlanting samplePT (by decide) (by decide)
      (by norm_num [samplePT])⟩

/-- C3: for a resolving plant type (with the data model's non-negative
germination day fields), if elapsed exceeds the total of the three phase
lengths then `done` is true and all three percentages clamp at 100; and
`done` is true exactly when elapsed exceeds that total. -/
theorem phaseFor_done_iff (pts : List PlantType) (now : ℤ) (planting : Planting)
    (pt : PlantType) (snap : PhaseSnapshot)
    (hpt : lookupById pts planting.plantTypeId = some pt)
    (hnn : 0 ≤ pt.germinationMinDays + pt.germinationMaxDays)
    (hsnap : phaseFor pts now planting = some snap) :
    (snap.total < snap.elapsed →
      snap.done = true ∧ snap.germinationPct = JSNum.real 100 ∧
      snap.growthPct = JSNum.real 100 ∧ snap.harvestPct = JSNum.real 100) ∧
    (snap.done = true ↔ snap.total < snap.elapsed) := by
  rw [phaseFor, hpt] at hsnap
  have hs := Option.some_inj.mp hsnap
  subst hs
  have hg1nn : 0 ≤ germLen pt := div_nonneg hnn (by norm_num)
  have hg2one : (1 : ℚ) ≤ growthLen pt := le_max_left _ _
  have hg3one : (1 : ℚ) ≤ harvestLen pt := le_max_left _ _
  constructor
  · intro hlt
    have hlt' : totalLen pt < elapsedDays planting now := hlt
    have htot : totalLen pt = germLen pt + growthLen pt + harvestLen pt := rfl
    refine ⟨decide_eq_true hlt', ?_, ?_, ?_⟩
    · show JSNum.clamp (JSNum.mul100
          (JSNum.jsDiv (elapsedDays planting now) (germLen pt))) 0 100 = JSNum.real 100
      rcases eq_or_lt_of_le hg1nn with h0 | hpos
      · rw [← h0]
        exact JSNum.clamp_div_zero_den _ (by linarith)
      · exact JSNum.clamp_div_eq_100 _ _ hpos (by linarith)
    · show JSNum.clamp (JSNum.mul100
          (JSNum.jsDiv (elapsedDays planting now - germLen pt) (growthLen pt))) 0 100
        = JSNum.real 100
      exact JSNum.clamp_div_eq_100 _ _ (by linarith) (by linarith)
    · show JSNum.clamp (JSNum.mul100
          (JSNum.jsDiv (elapsedDays planting now - germLen pt - growthLen pt)
            (harvestLen pt))) 0 100 = JSNum.real 100
      exact JSNum.clamp_div_eq_100 _ _ (by linarith) (by linarith)
  · show decide (totalLen pt < elapsedDays planting now) = true ↔
      totalLen pt < elapsedDays planting now
    exact ⟨of_decide_eq_true, decide_eq_true⟩

/-- Witness for C3: hypotheses and conclusion at a concrete catalogue,
planting, and a day far past the total phase length. -/
theorem phaseFor_done_iff_witness :
    lookupById [samplePT] samplePlanting.plantTypeId = some samplePT ∧
    (0 : ℚ) ≤ samplePT.germinationMinDays + samplePT.germinationMaxDays ∧
    ∃ snap, phaseFor [samplePT] 200 samplePlanting = some snap ∧
      ((snap.total < snap.elapsed →
        snap.done = true ∧ snap.germinationPct = JSNum.real 100 ∧
        snap.growthPct = JSNum.real 100 ∧ snap.harvestPct = JSNum.real 100) ∧
      (snap.done = true ↔ snap.total < snap.elapsed)) := by
  have hlk : lookupById [samplePT] samplePlanting.plantTypeId = some samplePT := by
    decide
  refine ⟨hlk, by norm_num [samplePT], ?_⟩
  obtain ⟨snap, hsnap⟩ : ∃ snap, phaseFor [samplePT] 200 samplePlanting = some snap :=
    ⟨_, by rw [phaseFor, hlk]⟩
  exact ⟨snap, hsnap,
    phaseFor_done_iff [samplePT] 200 samplePlanting samplePT snap hlk
      (by norm_num [samplePT]) hsnap⟩

theorem sumTotals_perm {l l' : List (String × ℚ)} (h : l.Perm l') :
    sumTotals l = sumTotals l' := by
  induction h with
  | nil => rfl
  | cons x _ ih => simp [sumTotals, ih]
  | swap x y l => simp [sumTotals]; ring
  | trans _ _ ih1 ih2 => rw [ih1, ih2]

theorem keyTotal_perm {l l' : List (String × ℚ)} (h : l.Perm l') (k : String) :
    keyTotal l k = keyTotal l' k := by
  induction h with
  | nil => rfl
  | cons x _ ih => simp [keyTotal, ih]
  | swap x y l => simp [keyTotal]; ring
  | trans _ _ ih1 ih2 => rw [ih1, ih2]

theorem sumTotals_bump (m : List (String × ℚ)) (k : String) (v : ℚ) :
    sumTotals (bump m k v) = sumTotals m + v := by
  induction m with
  | nil => simp [bump, sumTotals]
  | cons e rest ih =>
    rw [bump]
    split_ifs with he
    · simp [sumTotals]; ring
    · simp [sumTotals, ih]; ring

theorem keyTotal_bump (m : List (String × ℚ)) (k : String) (v : ℚ) (k' : String) :
    keyTotal (bump m k v) k' = keyTotal m k' + (if k = k' then v else 0) := by
  induction m with
  | nil =>
    by_cases h : k = k' <;> simp [bump, keyTotal, h]
  | cons e rest ih =>
    by_cases he : e.1 = k
    · subst he
      have hb : bump (e :: rest) e.1 v = (e.1, e.2 + v) :: rest := by
        simp [bump]
      rw [hb]
      by_cases h : e.1 = k'
      · simp only [keyTotal, if_pos h]
        ring
      · simp only [keyTotal, if_neg h]
        ring
    · have hb : bump (e :: rest) k v = e :: bump rest k v := by
        simp [bump, he]
      rw [hb]
      simp only [keyTotal, ih]
      ring

theorem sumTotals_tallyByMonth (hs : List Harvest) :
    ∀ m, sumTotals (tallyByMonth m hs) = sumTotals m + sumAmounts hs := by
  induction hs with
  | nil => intro m; simp [tallyByMonth, sumAmounts]
  | cons h rest ih =>
    intro m
    rw [tallyByMonth, ih, sumTotals_bump, sumAmounts]
    ring

theorem keyTotal_tallyByMonth (hs : List Harvest) :
    ∀ m k, keyTotal (tallyByMonth m hs) k
      = keyTotal m k + sumAmounts (hs.filter (fun h => monthKey h.date == k)) := by
  induction hs with
  | nil => intro m k; simp [tallyByMonth, sumAmounts]
  | cons h rest ih =>
    intro m k
    rw [tallyByMonth, ih, keyTotal_bump]
    by_cases hk : monthKey h.date = k
    · have hfil : (h :: rest).filter (fun h2 => monthKey h2.date == k)
          = h :: rest.filter (fun h2 => monthKey h2.date == k) := by
        simp only [List.filter_cons, hk, beq_self_eq_true, if_true]
      rw [hfil, if_pos hk, sumAmounts]
      ring
    · have hfil : (h :: rest).filter (fun h2 => monthKey h2.date == k)
          = rest.filter (fun h2 => monthKey h2.date == k) := by
        simp only [List.filter_cons]
        rw [if_neg (by simpa using hk)]
      rw [hfil, if_neg hk]
      ring

instance : IsTotal (String × ℚ) (fun a b => a.1 ≤ b.1) :=
  ⟨fun a b => le_total a.1 b.1⟩

instance : IsTrans (String × ℚ) (fun a b => a.1 ≤ b.1) :=
  ⟨fun _ _ _ h1 h2 => le_trans h1 h2⟩

instance : IsTotal (String × ℚ) (fun a b => b.2 ≤ a.2) :=
  ⟨fun a b => (le_total a.2 b.2).symm⟩

instance : IsTrans (String × ℚ) (fun a b => b.2 ≤ a.2) :=
  ⟨fun _ _ _ h1 h2 => le_trans h2 h1⟩

/-- C4: `monthlyTotals` is sorted ascending by month key, its totals sum to
the sum of the input amounts, and each month key's total is exactly the sum
of the amounts of the harvests whose ISO date starts with that key. -/
theorem monthlyTotals_spec (hs : List Harvest) :
    List.Sorted (fun a b : String × ℚ => a.1 ≤ b.1) (monthlyTotals hs) ∧
    sumTotals (monthlyTotals hs) = sumAmounts hs ∧
    ∀ k, keyTotal (monthlyTotals hs) k
      = sumAmounts (hs.filter (fun h => monthKey h.date == k)) := by
  have hperm := List.perm_insertionSort (fun a b : String × ℚ => a.1 ≤ b.1)
    (tallyByMonth [] hs)
  refine ⟨List.sorted_insertionSort _ _, ?_, ?_⟩
  · rw [monthlyTotals, sumTotals_perm hperm, sumTotals_tallyByMonth]
    simp [sumTotals]
  · intro k
    rw [monthlyTotals, keyTotal_perm hperm, keyTotal_tallyByMonth]
    simp [keyTotal]

theorem sumTotals_tallyByType (pts : List PlantType) (ps : List Planting)
    (hs : List Harvest) :
    ∀ m, sumTotals (tallyByType pts ps m hs)
      = sumTotals m
        + sumAmounts (hs.filter (fun h =>
            (ps.find? (fun p => p.id == h.plantingId)).isSome)) := by
  induction hs with
  | nil => intro m; simp [tallyByType, sumAmounts]
  | cons h rest ih =>
    intro m
    rw [tallyByType]
    cases hfind : ps.find? (fun p => p.id == h.plantingId) with
    | none =>
      rw [ih]
      have hfil : (h :: rest).filter (fun h2 =>
            (ps.find? (fun p => p.id == h2.plantingId)).isSome)
          = rest.filter (fun h2 =>
            (ps.find? (fun p => p.id == h2.plantingId)).isSome) := by
        simp only [List.filter_cons]
        rw [if_neg (by simp [hfind])]
      rw [hfil]
    | some pl =>
      rw [ih, sumTotals_bump]
      have hfil : (h :: rest).filter (fun h2 =>
            (ps.find? (fun p => p.id == h2.plantingId)).isSome)
          = h :: rest.filter (fun h2 =>
            (ps.find? (fun p => p.id == h2.plantingId)).isSome) := by
        simp only [List.filter_cons]
        rw [if_pos (by simp [hfind])]
      rw [hfil, sumAmounts]
      ring

theorem keyTotal_tallyByType (pts : List PlantType) (ps : List Planting)
    (hs : List Harvest) :
    ∀ m k, keyTotal (tallyByType pts ps m hs) k
      = keyTotal m k
        + sumAmounts (hs.filter (fun h => resolvedKey pts ps h == some k)) := by
  induction hs with
  | nil => intro m k; simp [tallyByType, sumAmounts]
  | cons h rest ih =>
    intro m k
    rw [tallyByType]
    cases hfind : ps.find? (fun p => p.id == h.plantingId) with
    | none =>
      rw [ih]
      have hfil : (h :: rest).filter (fun h2 => resolvedKey pts ps h2 == some k)
          = rest.filter (fun h2 => resolvedKey pts ps h2 == some k) := by
        simp only [List.filter_cons]
        rw [if_neg (by simp [resolvedKey, hfind])]
      rw [hfil]
    | some pl =>
      rw [ih, keyTotal_bump]
      have hkey : resolvedKey pts ps h
          = some (plantTypeName (lookupById pts pl.plantTypeId)) := by
        simp [resolvedKey, hfind]
      by_cases hk : plantTypeName (lookupById pts pl.plantTypeId) = k
      · have hfil : (h :: rest).filter (fun h2 => resolvedKey pts ps h2 == some k)
            = h :: rest.filter (fun h2 => resolvedKey pts ps h2 == some k) := by
          simp only [List.filter_cons]
          rw [if_pos (by simp [hkey, hk])]
        rw [hfil, if_pos hk, sumAmounts]
        ring
      · have hfil : (h :: rest).filter (fun h2 => resolvedKey pts ps h2 == some k)
            = rest.filter (fun h2 => resolvedKey pts ps h2 == some k) := by
          simp only [List.filter_cons]
          rw [if_neg (by simp [hkey, hk])]
        rw [hfil, if_neg hk]
        ring

/-- A harvest whose `plantingId` does not resolve against the plantings. -/
def danglingHarvest : Harvest :=
  { id := "h1", plantingId := "missing", date := "2024-01-01", amount := 5,
    unit := .kg, notes := "" }

/-- Counterexample to C5 as stated: a harvest whose planting reference
dangles is skipped by `totalsByPlantType`, so the output totals sum to 0
while the input amounts sum to 5. -/
theorem totalsByPlantType_sum_cex :
    ¬ (sumTotals (totalsByPlantType [] [] [danglingHarvest])
        = sumAmounts [danglingHarvest]) := by
  have hout : totalsByPlantType [] [] [danglingHarvest] = [] := by
    rfl
  rw [hout]
  norm_num [sumTotals, sumAmounts, danglingHarvest]

/-- C5 (amended): `totalsByPlantType` is sorted descending by total, and its
totals sum to the sum of the amounts of those input harvests whose
`plantingId` resolves in the plantings list (dangling harvests are skipped). -/
theorem totalsByPlantType_spec (pts : List PlantType) (ps : List Planting)
    (hs : List Harvest) :
    List.Sorted (fun a b : String × ℚ => b.2 ≤ a.2) (totalsByPlantType pts ps hs) ∧
    sumTotals (totalsByPlantType pts ps hs)
      = sumAmounts (hs.filter (fun h =>
          (ps.find? (fun p => p.id == h.plantingId)).isSome)) := by
  have hperm := List.perm_insertionSort (fun a b : String × ℚ => b.2 ≤ a.2)
    (tallyByType pts ps [] hs)
  refine ⟨List.sorted_insertionSort _ _, ?_⟩
  rw [totalsByPlantType, sumTotals_perm hperm, sumTotals_tallyByType]
  simp [sumTotals]

theorem lookupById_filter_ne (l : List PlantType) (tid : String) :
    lookupById (l.filter (fun p => p.id != tid)) tid = none := by
  have key : ∀ (l' : List PlantType) (acc : Option PlantType),
      (l'.filter (fun p => p.id != tid)).foldl
        (fun acc p => if p.id == tid then some p else acc) acc = acc := by
    intro l'
    induction l' with
    | nil => intro acc; rfl
    | cons p rest ih =>
      intro acc
      by_cases hp : p.id = tid
      · simp only [List.filter_cons, hp, bne_self_eq_false, Bool.false_eq_true,
          if_false]
        exact ih acc
      · have hbne : (p.id != tid) = true := by simpa using hp
        simp only [List.filter_cons, hbne, if_true, List.foldl_cons]
        rw [if_neg (by simpa using hp)]
        exact ih acc
  exact key l none

/-- C6: dangling id references are tolerated, never an error: a planting
whose plant type is missing gets no phase estimate (`phaseFor` is `null`);
deleting a plant type touches neither the plantings nor the harvests, and
afterwards the orphaned planting's estimate is `null`; a harvest whose
planting resolves but whose planting's plant type does not is tallied by
`totalsByPlantType` under the literal label `"Unknown"`. -/
theorem danglingRefs_tolerated (pts : List PlantType) (now : ℤ) (planting : Planting)
    (st : AppState) (tid : String) (ps : List Planting) (hs : List Harvest)
    (h : Harvest) (pl : Planting) :
    (lookupById pts planting.plantTypeId = none → phaseFor pts now planting = none) ∧
    ((removeType tid st).plantings = st.plantings ∧
      (removeType tid st).harvests = st.harvests) ∧
    (planting.plantTypeId = tid →
      phaseFor (removeType tid st).plantTypes now planting = none) ∧
    (h ∈ hs → ps.find? (fun p => p.id == h.plantingId) = some pl →
      lookupById pts pl.plantTypeId = none →
      resolvedKey pts ps h = some "Unknown" ∧
      h ∈ hs.filter (fun h2 => resolvedKey pts ps h2 == some "Unknown") ∧
      keyTotal (totalsByPlantType pts ps hs) "Unknown"
        = sumAmounts (hs.filter (fun h2 => resolvedKey pts ps h2 == some "Unknown"))) := by
  refine ⟨?_, ⟨rfl, rfl⟩, ?_, ?_⟩
  · intro hnone
    rw [phaseFor, hnone]
  · intro heq
    rw [phaseFor]
    have : lookupById (removeType tid st).plantTypes planting.plantTypeId = none := by
      rw [heq]
      exact lookupById_filter_ne st.plantTypes tid
    rw [this]
  · intro hmem hfind hnone
    have hkey : resolvedKey pts ps h = some "Unknown" := by
      simp [resolvedKey, hfind, hnone, plantTypeName]
    refine ⟨hkey, List.mem_filter.mpr ⟨hmem, by simp [hkey]⟩, ?_⟩
    have hperm := List.perm_insertionSort (fun a b : String × ℚ => b.2 ≤ a.2)
      (tallyByType pts ps [] hs)
    rw [totalsByPlantType, keyTotal_perm hperm, keyTotal_tallyByType]
    simp [keyTotal]

/-- A planting whose `plantTypeId` resolves to no catalogue entry. -/
def orphanPlanting : Planting :=
  { id := "p1", plantTypeId := "gone", plantedAt := 0, location := "",
    quantityPlanted := 1, notes := "", archived := false }

/-- A harvest resolving to `orphanPlanting`. -/
def orphanHarvest : Harvest :=
  { id := "h2", plantingId := "p1", date := "2024-02-02", amount := 3,
    unit := .kg, notes := "" }

/-- Witness for C6: hypotheses and conclusions at a concrete empty catalogue,
an orphaned planting, and a harvest of it. -/
theorem danglingRefs_tolerated_witness :
    phaseFor [] 0 orphanPlanting = none ∧
    (removeType "t1" ⟨[samplePT], [orphanPlanting], [orphanHarvest]⟩).plantings
      = [orphanPlanting] ∧
    resolvedKey [] [orphanPlanting] orphanHarvest = some "Unknown" ∧
    keyTotal (totalsByPlantType [] [orphanPlanting] [orphanHarvest]) "Unknown"
      = sumAmounts ([orphanHarvest].filter
          (fun h2 => resolvedKey [] [orphanPlanting] h2 == some "Unknown")) := by
  have big := danglingRefs_tolerated [] 0 orphanPlanting
    ⟨[samplePT], [orphanPlanting], [orphanHarvest]⟩ "t1" [orphanPlanting]
    [orphanHarvest] orphanHarvest orphanPlanting
  have hlast := big.2.2.2 (by decide) (by decide) (by decide)
  exact ⟨big.1 (by decide), big.2.1.1, hlast.1, hlast.2.2⟩

/-- C7: `importJSON` accepts a payload exactly when all three collection
fields are present; a rejected import leaves the state unchanged, an
accepted one replaces all three collections with the payload's. -/
theorem importJSON_spec (d : Backup) (st : AppState) :
    ((importJSON d st).1 = true ↔
      d.plantTypes.isSome ∧ d.plantings.isSome ∧ d.harvests.isSome) ∧
    ((importJSON d st).1 = false → (importJSON d st).2 = st) ∧
    ((importJSON d st).1 = true →
      some (importJSON d st).2.plantTypes = d.plantTypes ∧
      some (importJSON d st).2.plantings = d.plantings ∧
      some (importJSON d st).2.harvests = d.harvests) := by
  rcases d with ⟨ts, ps, hs, ex⟩
  cases ts <;> cases ps <;> cases hs <;> simp [importJSON]

/-- A payload missing the `harvests` field. -/
def badBackup : Backup :=
  { plantTypes := some [], plantings := some [], harvests := none,
    exportedAt := none }

/-- A concrete in-memory state. -/
def sampleState : AppState :=
  { plantTypes := [samplePT], plantings := [samplePlanting], harvests := [] }

/-- Witness for C7: the payload missing `harvests` is rejected and leaves a
concrete state unchanged; an accepted payload replaces the collections. -/
theorem importJSON_spec_witness :
    (importJSON badBackup sampleState).2 = sampleState ∧
    some (importJSON (exportJSON sampleState "2024-06-01") sampleState).2.plantTypes
      = (exportJSON sampleState "2024-06-01").plantTypes :=
  ⟨(importJSON_spec badBackup sampleState).2.1 (by decide),
    ((importJSON_spec (exportJSON sampleState "2024-06-01") sampleState).2.2 rfl).1⟩

/-- C8: exporting the three collections and importing the resulting payload
is accepted and restores the collections exactly (deep equality, order
preserved), whatever state the import starts from. -/
theorem export_import_roundtrip (st st0 : AppState) (ts : String) :
    importJSON (exportJSON st ts) st0 = (true, st) :=
  rfl

/-- C9: with an open harvest target, `logHarvest` is a silent no-op on the
whole state when the amount is non-positive (or falsy), and with a positive
amount it prepends exactly one new harvest record, leaving the plantings and
the catalogue untouched. -/
theorem logHarvest_spec (t : Planting) (input : HarvestInput) (newId : String)
    (st : AppState) :
    (input.amount ≤ 0 → logHarvest (some t) input newId st = st) ∧
    (0 < input.amount →
      (logHarvest (some t) input newId st).harvests
        = { id := newId, plantingId := t.id, date := input.date,
            amount := input.amount, unit := input.unit, notes := input.notes }
          :: st.harvests ∧
      (logHarvest (some t) input newId st).plantings = st.plantings ∧
      (logHarvest (some t) input newId st).plantTypes = st.plantTypes) := by
  constructor
  · intro hle
    simp only [logHarvest]
    rw [if_pos (Or.inr hle)]
  · intro hpos
    have hcond : ¬ (input.amount = 0 ∨ input.amount ≤ 0) := by
      push_neg
      exact ⟨hpos.ne', hpos⟩
    simp only [logHarvest]
    rw [if_neg hcond]
    exact ⟨rfl, rfl, rfl⟩

/-- Witness for C9: a zero amount is a no-op on a concrete state; an amount
of 2 prepends the new record. -/
theorem logHarvest_spec_witness :
    logHarvest (some samplePlanting)
      { amount := 0, unit := .kg, date := "2024-03-05", notes := "" } "h9"
      sampleState = sampleState ∧
    (logHarvest (some samplePlanting)
      { amount := 2, unit := .kg, date := "2024-03-05", notes := "" } "h9"
      sampleState).harvests
      = { id := "h9", plantingId := samplePlanting.id, date := "2024-03-05",
          amount := 2, unit := .kg, notes := "" } :: sampleState.harvests :=
  ⟨(logHarvest_spec samplePlanting
      { amount := 0, unit := .kg, date := "2024-03-05", notes := "" } "h9"
      sampleState).1 le_rfl,
    ((logHarvest_spec samplePlanting
      { amount := 2, unit := .kg, date := "2024-03-05", notes := "" } "h9"
      sampleState).2 (by norm_num)).1⟩

/-- C10: `toggleArchive` applied twice with the same id restores the
plantings list exactly; a single application preserves every field except
`archived` of every planting (in order), leaves plantings with a different
id untouched, and keeps the list length. -/
theorem toggleArchive_involution (i : String) (arr : List Planting) :
    toggleArchive i (toggleArchive i arr) = arr ∧
    (toggleArchive i arr).map plantingFrame = arr.map plantingFrame ∧
    (toggleArchive i arr).filter (fun p => p.id != i)
      = arr.filter (fun p => p.id != i) ∧
    (toggleArchive i arr).length = arr.length := by
  refine ⟨?_, ?_, ?_, by simp [toggleArchive]⟩
  · rw [toggleArchive, toggleArchive, List.map_map]
    have hpt : ∀ p : Planting,
        ((fun p => if p.id == i then { p with archived := !p.archived } else p) ∘
          (fun p => if p.id == i then { p with archived := !p.archived } else p)) p
        = p := by
      intro p
      by_cases hp : p.id = i
      · have h1 : (if p.id == i then { p with archived := !p.archived } else p)
            = { p with archived := !p.archived } := if_pos (by simpa using hp)
        rw [Function.comp_apply, h1, if_pos (by simpa using hp)]
        simp only [Bool.not_not]
      · have h1 : (if p.id == i then { p with archived := !p.archived } else p) = p :=
          if_neg (by simpa using hp)
        rw [Function.comp_apply, h1, h1]
    rw [List.map_congr_left (fun p _ => hpt p)]
    exact List.map_id' arr
  · rw [toggleArchive, List.map_map]
    have hpt : ∀ p : Planting,
        (plantingFrame ∘
          (fun p => if p.id == i then { p with archived := !p.archived } else p)) p
        = plantingFrame p := by
      intro p
      by_cases hp : p.id = i
      · rw [Function.comp_apply, if_pos (by simpa using hp)]
        simp [plantingFrame]
      · rw [Function.comp_apply, if_neg (by simpa using hp)]
    exact List.map_congr_left (fun p _ => hpt p)
  · induction arr with
    | nil => rfl
    | cons p rest ih =>
      simp only [toggleArchive, List.map_cons] at ih ⊢
      by_cases hp : p.id = i
      · rw [show (if p.id == i then { p with archived := !p.archived } else p)
            = { p with archived := !p.archived } from if_pos (by simpa using hp)]
        rw [List.filter_cons, List.filter_cons]
        rw [show (p.id != i) = false by simpa using hp]
        simp only [Bool.false_eq_true, if_false]
        exact ih
      · rw [show (if p.id == i then { p with archived := !p.archived } else p) = p
            from if_neg (by simpa using hp)]
        rw [List.filter_cons, List.filter_cons]
        rw [show (p.id != i) = true by simpa using hp]
        simp only [if_true]
        rw [ih]
